/-
Verification of the synesthesia precise-audio playback engine
(`PreciseAudio` class) and of the composer's cue-file manipulation
functions, as a shallow embedding in Lean 4.

Modelling conventions:
  * JavaScript numbers are modelled as ℚ (the engine only performs
    +, −, ×, ÷ on them; `playbackRate = 0`, which would produce
    Infinity/NaN in JS, is outside the model and excluded by
    hypothesis where division occurs).
  * The AudioContext clock (`context.currentTime`, in seconds) is an
    explicit parameter `now : ℚ` to every operation that reads it.
  * JavaScript object identity (the `track === this.track` and
    `this.track?.data?.state !== state` checks) is modelled with a
    fresh-identity counter `fresh`: every Track and every Playing
    state object receives a distinct `Nat` id at creation.  A Playing
    state and the backend source created for it in the same
    `playFrom` call share one id (they are created 1:1 and die
    together).
  * The AudioBackend's set of started-and-not-yet-stopped sources is
    the list `activeSources`; `source.start` appends the new id and
    `source.stop()` erases it.
  * Events dispatched synchronously by an operation are returned as a
    `List Ev` alongside the new engine state.
  * `Playing.anchorRate` is a ghost field (it has no counterpart in
    the source): it records the value of `_playbackRate` that was used
    to compute `effectiveStartTimeMillis`, so that the "anchor is
    consistent with the current rate" invariant can be stated.
  * The pitch-shift routing in `playFrom` (transpose = 12·log₂(1/rate))
    only configures the external DSP node and touches no engine state;
    it is not modelled.
-/
import Mathlib

namespace PreciseAudio

/-- The event types a `PreciseAudio` instance can dispatch. -/
inductive Ev where
  | canplay
  | canplaythrough
  | ended
  | error
  | loadeddata
  | play
  | pause
  | ratechange
  | seeked
  | timeupdate
  | volumechange
deriving DecidableEq, Repr

/-- Source `TrackSource`: where the audio came from.  A `File | Blob` handle is
opaque and modelled as a `Nat`. -/
inductive TrackSource where
  | bySrc (src : String)
  | byFile (fileId : Nat)
deriving DecidableEq, Repr

/-- A decoded `AudioBuffer`; the engine only reads its `duration`
(in seconds). -/
structure AudioBuffer where
  duration : ℚ
deriving DecidableEq, Repr

/-- The payload of the `playing` variant of `PlayState`.
`id` models the identity of the playing-state object and of the
`AudioBufferSourceNode` created with it.  `anchorRate` is ghost (see
module comment). -/
structure Playing where
  id : Nat
  suppressEndedEvent : Bool
  effectiveStartTimeMillis : ℚ
  anchorRate : ℚ
deriving DecidableEq, Repr

/-- Source `PlayState`: tagged union with exactly two cases. -/
inductive PlayState where
  | paused (positionMillis : ℚ)
  | playing (s : Playing)
deriving DecidableEq, Repr

/-- Source `Track.data`, set once successfully loaded. -/
structure TrackData where
  buffer : AudioBuffer
  state : PlayState
deriving DecidableEq, Repr

/-- A `Track`: source descriptor plus optionally-loaded data.  `id`
models the identity of the Track object. -/
structure Track where
  id : Nat
  source : TrackSource
  data : Option TrackData
deriving DecidableEq, Repr

/-- The whole mutable state of one `PreciseAudio` instance, together
with the modelled backend bookkeeping (`activeSources`) and the
identity counter (`fresh`). `gain` is `gainNode.gain.value`. -/
structure Engine where
  playbackRate : ℚ
  adjustPitchWithPlaybackRate : Bool
  volume : ℚ
  muted : Bool
  gain : ℚ
  track : Option Track
  activeSources : List Nat
  fresh : Nat
deriving DecidableEq, Repr

/-- The state of a freshly constructed `PreciseAudio` (constructor plus
field initialisers). -/
def initialEngine : Engine :=
  { playbackRate := 1
    adjustPitchWithPlaybackRate := true
    volume := 1
    muted := false
    gain := 1
    track := none
    activeSources := []
    fresh := 0 }

/-- The current `PlayState`, i.e. `this.track?.data?.state`. -/
def curState (e : Engine) : Option PlayState :=
  e.track.bind fun t => t.data.map fun d => d.state

/-- Replace `this.track.data.state` (no-op when track or data is
absent, mirroring the optional-chaining guards at every call site). -/
def setState (e : Engine) (s : PlayState) : Engine :=
  match e.track with
  | none => e
  | some t =>
    match t.data with
    | none => e
    | some d => { e with track := some { t with data := some { d with state := s } } }

/-- Source `updateGain`: recompute `gainNode.gain.value` from volume/muted. -/
def updateGain (e : Engine) : Engine :=
  { e with gain := if e.muted then 0 else e.volume }

/-- Source `stopWithoutEnding(state)`: sets `suppressEndedEvent` on the
current playing state object and stops its backend source.  Callers
only invoke it when the current state is playing. -/
def stopWithoutEnding (e : Engine) : Engine :=
  match curState e with
  | some (.playing s) =>
    setState { e with activeSources := e.activeSources.erase s.id }
      (.playing { s with suppressEndedEvent := true })
  | _ => e

/-- Source `playFrom(positionMillis)`: create and start a backend source and
install a fresh `playing` state anchored at
`nowMillis − positionMillis / playbackRate`.  It does not stop any
previous source itself — its callers guarantee that. -/
def playFrom (e : Engine) (now positionMillis : ℚ) : Engine :=
  match e.track with
  | none => e
  | some t =>
    match t.data with
    | none => e
    | some d =>
      let nowMillis := now * 1000
      let st : PlayState := .playing
        { id := e.fresh
          suppressEndedEvent := false
          effectiveStartTimeMillis := nowMillis - positionMillis / e.playbackRate
          anchorRate := e.playbackRate }
      { e with
        track := some { t with data := some { d with state := st } }
        activeSources := e.activeSources ++ [e.fresh]
        fresh := e.fresh + 1 }

/-- Source `play()`: no-op unless a loaded track is paused; otherwise
`playFrom` the stored position and fire `play`. -/
def play (e : Engine) (now : ℚ) : Engine × List Ev :=
  match curState e with
  | some (.paused positionMillis) => (playFrom e now positionMillis, [.play])
  | _ => (e, [])

/-- Source `pause()`: no-op unless playing; otherwise stop the source
(suppressed), store `(nowMillis − anchor) × rate` and fire `pause`. -/
def pause (e : Engine) (now : ℚ) : Engine × List Ev :=
  match curState e with
  | some (.playing s) =>
    let nowMillis := now * 1000
    let e1 := stopWithoutEnding e
    (setState e1 (.paused ((nowMillis - s.effectiveStartTimeMillis) * e.playbackRate)),
      [.pause])
  | _ => (e, [])

/-- Source `paused` getter: `this.track?.data?.state.state !== 'playing'`. -/
def pausedGetter (e : Engine) : Bool :=
  match curState e with
  | some (.playing _) => false
  | _ => true

/-- Source `currentTimeMillis` getter. -/
def currentTimeMillis (e : Engine) (now : ℚ) : ℚ :=
  match curState e with
  | some (.paused positionMillis) => positionMillis
  | some (.playing s) =>
    let nowMillis := now * 1000
    (nowMillis - s.effectiveStartTimeMillis) * e.playbackRate
  | none => 0

/-- Source `currentTime` getter: seconds. -/
def currentTime (e : Engine) (now : ℚ) : ℚ :=
  currentTimeMillis e now / 1000

/-- Source `currentTime` setter (seek). -/
def setCurrentTime (e : Engine) (now positionSeconds : ℚ) : Engine × List Ev :=
  match curState e with
  | none => (e, [])
  | some st =>
    let positionMillis := positionSeconds * 1000
    match st with
    | .paused _ =>
      (setState e (.paused positionMillis), [.timeupdate, .seeked])
    | .playing _ =>
      (playFrom (stopWithoutEnding e) now positionMillis, [.seeked])

/-- Source `duration` getter: buffer duration in seconds, `0` when unloaded. -/
def duration (e : Engine) : ℚ :=
  match e.track with
  | some t =>
    match t.data with
    | some d => d.buffer.duration
    | none => 0
  | none => 0

/-- Source `durationMillis` getter. -/
def durationMillis (e : Engine) : ℚ :=
  duration e * 1000

/-- Source `changeConfiguration(callback)`: pause if playing, apply the
configuration change, resume if previously playing. -/
def changeConfiguration (e : Engine) (now : ℚ) (f : Engine → Engine) :
    Engine × List Ev :=
  match curState e with
  | some (.playing _) =>
    let (e1, evs1) := pause e now
    let e2 := f e1
    let (e3, evs3) := play e2 now
    (e3, evs1 ++ evs3)
  | _ => (f e, [])

/-- Source `playbackRate` setter: reconfigure, then fire `ratechange`. -/
def setPlaybackRate (e : Engine) (now rate : ℚ) : Engine × List Ev :=
  let (e1, evs) := changeConfiguration e now fun e => { e with playbackRate := rate }
  (e1, evs ++ [.ratechange])

/-- Source `adjustPitchWithPlaybackRate` setter: reconfigure only. -/
def setAdjustPitchWithPlaybackRate (e : Engine) (now : ℚ) (adjust : Bool) :
    Engine × List Ev :=
  changeConfiguration e now fun e => { e with adjustPitchWithPlaybackRate := adjust }

/-- Source `volume` setter: clamp to [0,1]; update gain and fire
`volumechange` only when the stored value changes. -/
def setVolume (e : Engine) (volume : ℚ) : Engine × List Ev :=
  let v := max 0 (min 1 volume)
  if v ≠ e.volume then
    (updateGain { e with volume := v }, [.volumechange])
  else
    (e, [])

/-- Source `muted` setter: update gain and fire `volumechange` only when the
flag changes. -/
def setMuted (e : Engine) (muted : Bool) : Engine × List Ev :=
  if muted ≠ e.muted then
    (updateGain { e with muted := muted }, [.volumechange])
  else
    (e, [])

/-- Synchronous part of `loadAudioFile(file)`: stop a playing source
(suppressed) and install a fresh, data-less Track.  Returns the new
Track's identity (the `track` local that the asynchronous `loadFile`
call closes over). -/
def loadAudioFileStart (e : Engine) (fileId : Nat) : Engine × Nat :=
  let e1 :=
    match curState e with
    | some (.playing _) => stopWithoutEnding e
    | _ => e
  ({ e1 with
      track := some { id := e1.fresh, source := .byFile fileId, data := none }
      fresh := e1.fresh + 1 },
    e1.fresh)

/-- Synchronous part of the `src` setter: stop a playing source
(suppressed); clear the track when `src` is empty, else install a
fresh, data-less Track and return its identity (closed over by the
fetch continuation). -/
def setSrcStart (e : Engine) (src : String) : Engine × Option Nat :=
  let e1 :=
    match curState e with
    | some (.playing _) => stopWithoutEnding e
    | _ => e
  if src = "" then
    ({ e1 with track := none }, none)
  else
    ({ e1 with
        track := some { id := e1.fresh, source := .bySrc src, data := none }
        fresh := e1.fresh + 1 },
      some e1.fresh)

/-- Tail of `loadFile(track, file)` after the decode resolves: only if
`track === this.track` (identity) publish the TrackData and fire the
four load events. -/
def loadComplete (e : Engine) (trackId : Nat) (buffer : AudioBuffer) :
    Engine × List Ev :=
  match e.track with
  | some t =>
    if t.id = trackId then
      ({ e with track := some { t with data := some { buffer := buffer, state := .paused 0 } } },
        [.loadeddata, .canplay, .canplaythrough, .timeupdate])
    else
      (e, [])
  | none => (e, [])

/-- Result of settling an asynchronous load: the updated engine, the
events fired, and whether an exception escapes the public operation
(a promise rejection). -/
structure LoadOutcome where
  engine : Engine
  events : List Ev
  throws : Bool
deriving DecidableEq, Repr

/-- Settling of `loadAudioFile`'s awaited `loadFile(track, file)` call:
on success run the identity-checked publish; on failure the `.catch`
handler dispatches `error` and then re-throws, so the promise returned
by `loadAudioFile` rejects. -/
def loadAudioFileSettle (e : Engine) (trackId : Nat)
    (result : Except Unit AudioBuffer) : LoadOutcome :=
  match result with
  | .ok buffer =>
    let (e1, evs) := loadComplete e trackId buffer
    { engine := e1, events := evs, throws := false }
  | .error _ => { engine := e, events := [.error], throws := true }

/-- Settling of the `src` setter's fetch/decode chain: on success run
the identity-checked publish; on failure the `.catch` handler
dispatches `error` and swallows the exception. -/
def setSrcSettle (e : Engine) (trackId : Nat)
    (result : Except Unit AudioBuffer) : LoadOutcome :=
  match result with
  | .ok buffer =>
    let (e1, evs) := loadComplete e trackId buffer
    { engine := e1, events := evs, throws := false }
  | .error _ => { engine := e, events := [.error], throws := false }

/-- The backend source with identity `closedId` finishes on its own:
the source stops (leaves `activeSources`) and the `ended` listener
created by `createTrackEndedListener` runs.  The listener fires
`ended` and resets to `Paused(0)` only if the state it closed over is
still the current state (identity) and not suppressed. -/
def naturalEnd (e : Engine) (closedId : Nat) : Engine × List Ev :=
  let e1 := { e with activeSources := e.activeSources.erase closedId }
  match curState e1 with
  | some (.playing s) =>
    if s.id = closedId ∧ s.suppressEndedEvent = false then
      (setState e1 (.paused 0), [.ended])
    else
      (e1, [])
  | _ => (e1, [])

end PreciseAudio

namespace FileManipulation

/-
Shallow embedding of `composer/src/scripts/ts/data/file-manipulation.ts`
(the part `updateStartTimeForSelectedEvents` needs).  The `settings`
payload (type `S`) and the event-state `values` payload (type `V`) flow
through unchanged.  Invalid selection indices, which in JS would make
`Math.min` return `NaN`, are outside the model; theorems carry an
explicit validity hypothesis and the embedded minimum defaults to `0`
on the (excluded) empty list.
-/

/-- Source `CueFileEventState<V>`. -/
structure CueFileEventState (V : Type) where
  millisDelta : ℚ
  values : V
deriving DecidableEq, Repr

/-- Source `CueFileEvent<V>`. -/
structure CueFileEvent (V : Type) where
  timestampMillis : ℚ
  states : List (CueFileEventState V)
deriving DecidableEq, Repr

/-- Source `CueFileLayer` (kind / settings / events). -/
structure CueFileLayer (S V : Type) where
  kind : String
  settings : S
  events : List (CueFileEvent V)
deriving DecidableEq, Repr

/-- Source `CueFile`. -/
structure CueFile (S V : Type) where
  lengthMillis : ℚ
  layers : List (CueFileLayer S V)
deriving DecidableEq, Repr

/-- One entry of `selection.events`. -/
structure SelectedEvent where
  layer : Nat
  index : Nat
deriving DecidableEq, Repr

/-- A `selection.Selection` (only its `events` field is used here). -/
structure Selection where
  events : List SelectedEvent
deriving DecidableEq, Repr

/-- Membership in the `buildUpSelectionSet` structure: whether the
event at `(layer, index)` is selected. -/
def isSelected (sel : Selection) (layer index : Nat) : Bool :=
  sel.events.any fun e => e.layer = layer && e.index = index

/-- Source `List.map` with the element's index passed to the function,
mirroring the `(e, i) =>` callbacks of `Array.prototype.map`. -/
def mapWithIndexFrom {α β : Type} (f : Nat → α → β) (i : Nat) : List α → List β
  | [] => []
  | x :: xs => f i x :: mapWithIndexFrom f (i + 1) xs

/-- Source `mapWithIndexFrom` starting at index `0`. -/
def mapWithIndex {α β : Type} (f : Nat → α → β) (l : List α) : List β :=
  mapWithIndexFrom f 0 l

/-- Source `modifyEvents(cueFile, selection, f)`: apply `f` to exactly the
selected events (the source's per-layer "layer unchanged" shortcut
returns an identical layer and needs no separate case). -/
def modifyEvents {S V : Type} (cueFile : CueFile S V) (sel : Selection)
    (f : CueFileEvent V → CueFileEvent V) : CueFile S V :=
  { lengthMillis := cueFile.lengthMillis
    layers := mapWithIndex (fun li layer =>
      { kind := layer.kind
        settings := layer.settings
        events := mapWithIndex (fun ei e =>
          if isSelected sel li ei then f e else e) layer.events })
      cueFile.layers }

/-- Look up the event a selection entry points at:
`cueFile.layers[e.layer].events[e.index]`. -/
def lookupEvent {S V : Type} (cueFile : CueFile S V) (se : SelectedEvent) :
    Option (CueFileEvent V) :=
  (cueFile.layers.get? se.layer).bind fun l => l.events.get? se.index

/-- Minimum of a list of rationals (`Math.min.apply`); `0` on the empty
list, which every use excludes by hypothesis. -/
def listMin : List ℚ → ℚ
  | [] => 0
  | x :: xs => xs.foldl min x

/-- The earliest start time of the selected events
(`Math.min.apply(null, events().map(e => e.timestampMillis))`). -/
def selectionStart {S V : Type} (cueFile : CueFile S V) (sel : Selection) : ℚ :=
  listMin ((sel.events.filterMap (lookupEvent cueFile)).map
    fun e => e.timestampMillis)

/-- The source's small-shift guard, verbatim:
`shift < 0.1 && shift > 0.1`. -/
def smallShiftGuard (shift : ℚ) : Bool :=
  shift < (0.1 : ℚ) && shift > (0.1 : ℚ)

/-- Source `updateStartTimeForSelectedEvents`. -/
def updateStartTimeForSelectedEvents {S V : Type} (cueFile : CueFile S V)
    (sel : Selection) (newStartTime : ℚ) : CueFile S V :=
  if sel.events = [] then cueFile
  else
    let start := selectionStart cueFile sel
    let newStartTime' := max 0 newStartTime
    if start = newStartTime' then cueFile
    else
      let shift := newStartTime' - start
      if smallShiftGuard shift then cueFile
      else
        modifyEvents cueFile sel fun e =>
          { timestampMillis := e.timestampMillis + shift
            states := e.states }

end FileManipulation

namespace PreciseAudio

/-! ### The playback-controller invariant and sample states -/

/-- The engine invariant (C5): the backend has an active source
exactly when the current `PlayState` is `playing`, and then exactly
the one whose handle the playing state owns; an installed playing
state is never left suppressed; its anchor was computed with the
current `playbackRate` (ghost field `anchorRate`); and every
identity stored in the engine is below the freshness counter. -/
def inv (e : Engine) : Bool :=
  match e.track with
  | none => decide (e.activeSources = [])
  | some t =>
    decide (t.id < e.fresh) &&
    match t.data with
    | none => decide (e.activeSources = [])
    | some d =>
      match d.state with
      | .paused _ => decide (e.activeSources = [])
      | .playing s =>
        decide (e.activeSources = [s.id]) &&
        decide (s.suppressEndedEvent = false) &&
        decide (s.anchorRate = e.playbackRate) &&
        decide (s.id < e.fresh)

/-- A 10-second decoded buffer used in concrete witnesses. -/
def sampleBuffer : AudioBuffer := { duration := 10 }

/-- A concrete playing state: anchored at 1000 ms, rate 1. -/
def samplePlaying : Playing :=
  { id := 5
    suppressEndedEvent := false
    effectiveStartTimeMillis := 1000
    anchorRate := 1 }

/-- A concrete engine currently playing `sampleBuffer`. -/
def playingEngine : Engine :=
  { playbackRate := 1
    adjustPitchWithPlaybackRate := true
    volume := 1
    muted := false
    gain := 1
    track := some
      { id := 4
        source := .byFile 0
        data := some { buffer := sampleBuffer, state := .playing samplePlaying } }
    activeSources := [5]
    fresh := 6 }

/-- A concrete engine paused at 1500 ms into `sampleBuffer`. -/
def pausedEngine : Engine :=
  { playbackRate := 1
    adjustPitchWithPlaybackRate := true
    volume := 1
    muted := false
    gain := 1
    track := some
      { id := 4
        source := .byFile 0
        data := some { buffer := sampleBuffer, state := .paused 1500 } }
    activeSources := []
    fresh := 5 }

/-- A concrete engine with volume 1/2 and no track. -/
def halfVolumeEngine : Engine :=
  { initialEngine with volume := 1/2, gain := 1/2 }

end PreciseAudio

namespace FileManipulation

/-- A one-layer, one-event cue file used in concrete witnesses. -/
def sampleCueFile : CueFile Unit Unit :=
  { lengthMillis := 1000
    layers := [{ kind := "percussion", settings := ()
                 events := [{ timestampMillis := 0, states := [] }] }] }

/-- A selection containing exactly the event of `sampleCueFile`. -/
def sampleSelection : Selection := { events := [{ layer := 0, index := 0 }] }

end FileManipulation

namespace PreciseAudio

/-! ### Helper lemmas -/

theorem curState_eq_some {e : Engine} {st : PlayState} :
    curState e = some st ↔
      ∃ t d, e.track = some t ∧ t.data = some d ∧ d.state = st := by
  simp only [curState, Option.bind_eq_some, Option.map_eq_some']
  constructor
  · rintro ⟨t, ht, d, hd, hst⟩; exact ⟨t, d, ht, hd, hst⟩
  · rintro ⟨t, d, ht, hd, hst⟩; exact ⟨t, ht, d, hd, hst⟩

theorem setState_track {e : Engine} {t : Track} {d : TrackData} {s : PlayState}
    (htr : e.track = some t) (hd : t.data = some d) :
    (setState e s).track = some { t with data := some { d with state := s } } := by
  simp [setState, htr, hd]

theorem setState_fields (e : Engine) (s : PlayState) :
    (setState e s).playbackRate = e.playbackRate ∧
    (setState e s).adjustPitchWithPlaybackRate = e.adjustPitchWithPlaybackRate ∧
    (setState e s).volume = e.volume ∧
    (setState e s).muted = e.muted ∧
    (setState e s).gain = e.gain ∧
    (setState e s).activeSources = e.activeSources ∧
    (setState e s).fresh = e.fresh := by
  unfold setState
  rcases htr : e.track with _ | t
  · simp
  · rcases hd : t.data with _ | d
    · simp [hd]
    · simp [hd]

theorem curState_setState {e : Engine} {t : Track} {d : TrackData}
    (htr : e.track = some t) (hd : t.data = some d) (s : PlayState) :
    curState (setState e s) = some s := by
  rw [curState_eq_some]
  exact ⟨_, _, setState_track htr hd, rfl, rfl⟩

/-! ### C1 -/

/-- C1: `currentTimeMillis` is a read-only query (in this embedding it
is a value-only function of the engine state and the backend clock,
mirroring that the getter performs no writes): when the loaded track's
state is `paused` it returns exactly the stored `positionMillis`; when
it is `playing` it returns `(now − effectiveStartTimeMillis) ×
playbackRate` with `now` the backend clock converted to
milliseconds. -/
theorem currentTimeMillis_spec (e : Engine) (now : ℚ) :
    (∀ p, curState e = some (.paused p) → currentTimeMillis e now = p) ∧
    (∀ s, curState e = some (.playing s) →
      currentTimeMillis e now =
        (now * 1000 - s.effectiveStartTimeMillis) * e.playbackRate) := by
  constructor
  · intro p h
    unfold currentTimeMillis
    rw [h]
  · intro s h
    unfold currentTimeMillis
    rw [h]

/-- C1 witness: evaluating the playing case on `playingEngine` at
clock 2 s. -/
theorem currentTimeMillis_spec_witness :
    currentTimeMillis playingEngine 2 =
      ((2 : ℚ) * 1000 - samplePlaying.effectiveStartTimeMillis) *
        playingEngine.playbackRate :=
  (currentTimeMillis_spec playingEngine 2).2 samplePlaying rfl

/-! ### C10 -/

/-- C10: with no track loaded, or a track whose data has not yet
loaded, `currentTimeMillis`, `currentTime`, `duration` and
`durationMillis` all return 0 (they are total functions in this
embedding), and `paused` returns true. -/
theorem empty_engine_defaults (e : Engine) (now : ℚ)
    (h : e.track = none ∨ ∃ t, e.track = some t ∧ t.data = none) :
    currentTimeMillis e now = 0 ∧ currentTime e now = 0 ∧
    duration e = 0 ∧ durationMillis e = 0 ∧ pausedGetter e = true := by
  have hcs : curState e = none := by
    rcases h with h | ⟨t, htr, hd⟩
    · simp [curState, h]
    · simp [curState, htr, hd]
  refine ⟨?_, ?_, ?_, ?_, ?_⟩
  · unfold currentTimeMillis; rw [hcs]
  · unfold currentTime currentTimeMillis; rw [hcs]; norm_num
  · rcases h with h | ⟨t, htr, hd⟩
    · simp [duration, h]
    · simp [duration, htr, hd]
  · rcases h with h | ⟨t, htr, hd⟩
    · simp [durationMillis, duration, h]
    · simp [durationMillis, duration, htr, hd]
  · unfold pausedGetter; rw [hcs]

/-- C10 witness: a freshly constructed engine. -/
theorem empty_engine_defaults_witness :
    currentTimeMillis initialEngine 2 = 0 ∧ currentTime initialEngine 2 = 0 ∧
    duration initialEngine = 0 ∧ durationMillis initialEngine = 0 ∧
    pausedGetter initialEngine = true :=
  empty_engine_defaults initialEngine 2 (Or.inl rfl)

/-! ### C6 -/

/-- C6: for a loaded track in the `paused` state, a seek (assignment
to `currentTime`) overwrites the stored position with exactly the
given position (so `currentTimeMillis` then returns exactly that
value, at any clock reading), creates no backend source
(`activeSources` and the identity counter are untouched), and fires
`timeupdate` followed by `seeked`. -/
theorem seek_paused_spec (e : Engine) (now positionSeconds p : ℚ)
    (h : curState e = some (.paused p)) :
    curState (setCurrentTime e now positionSeconds).1 =
      some (.paused (positionSeconds * 1000)) ∧
    (∀ nowLater, currentTimeMillis (setCurrentTime e now positionSeconds).1 nowLater =
      positionSeconds * 1000) ∧
    (setCurrentTime e now positionSeconds).1.activeSources = e.activeSources ∧
    (setCurrentTime e now positionSeconds).1.fresh = e.fresh ∧
    (setCurrentTime e now positionSeconds).2 = [.timeupdate, .seeked] := by
  rcases curState_eq_some.mp h with ⟨t, d, htr, hd, hst⟩
  have hred : setCurrentTime e now positionSeconds =
      (setState e (.paused (positionSeconds * 1000)), [.timeupdate, .seeked]) := by
    simp [setCurrentTime, h]
  rw [hred]
  have hcs := curState_setState htr hd (.paused (positionSeconds * 1000))
  refine ⟨hcs, ?_, ?_, ?_, rfl⟩
  · intro nowLater
    simp [currentTimeMillis, hcs]
  · exact (setState_fields e _).2.2.2.2.2.1
  · exact (setState_fields e _).2.2.2.2.2.2

/-- C6 witness: seek `pausedEngine` to 2 s. -/
theorem seek_paused_spec_witness :
    curState (setCurrentTime pausedEngine 3 2).1 = some (.paused (2 * 1000)) ∧
    (∀ nowLater, currentTimeMillis (setCurrentTime pausedEngine 3 2).1 nowLater =
      2 * 1000) ∧
    (setCurrentTime pausedEngine 3 2).1.activeSources = pausedEngine.activeSources ∧
    (setCurrentTime pausedEngine 3 2).1.fresh = pausedEngine.fresh ∧
    (setCurrentTime pausedEngine 3 2).2 = [.timeupdate, .seeked] :=
  seek_paused_spec pausedEngine 3 2 1500 rfl

/-! ### C2 -/

/-- C2: a load completion whose originating Track has been superseded
(by a newer `loadAudioFile` call, or by a `src` assignment) writes no
`TrackData` and fires no events; the completion whose Track is still
current populates `data` with the decoded buffer in state `Paused(0)`
and fires `loadeddata`, `canplay`, `canplaythrough`, `timeupdate`. -/
theorem load_supersession_spec (e : Engine) (f1 f2 : Nat) (url : String)
    (buf : AudioBuffer) :
    (loadComplete (loadAudioFileStart (loadAudioFileStart e f1).1 f2).1
        (loadAudioFileStart e f1).2 buf =
      ((loadAudioFileStart (loadAudioFileStart e f1).1 f2).1, [])) ∧
    (loadComplete (setSrcStart (loadAudioFileStart e f1).1 url).1
        (loadAudioFileStart e f1).2 buf =
      ((setSrcStart (loadAudioFileStart e f1).1 url).1, [])) ∧
    ((loadComplete (loadAudioFileStart e f1).1 (loadAudioFileStart e f1).2 buf).2 =
      [Ev.loadeddata, Ev.canplay, Ev.canplaythrough, Ev.timeupdate]) ∧
    (∃ t, (loadComplete (loadAudioFileStart e f1).1
        (loadAudioFileStart e f1).2 buf).1.track = some t ∧
      t.data = some { buffer := buf, state := .paused 0 }) := by
  obtain ⟨rate₀, adj, vol, mu, g, tr, act, fr⟩ := e
  by_cases hu : url = ""
  · rcases tr with _ | ⟨tid, src, dat⟩
    · refine ⟨?_, ?_, ?_, ?_⟩ <;>
        simp [loadAudioFileStart, setSrcStart, loadComplete, stopWithoutEnding,
          setState, curState, hu]
    · rcases dat with _ | ⟨buf', st⟩
      · refine ⟨?_, ?_, ?_, ?_⟩ <;>
          simp [loadAudioFileStart, setSrcStart, loadComplete, stopWithoutEnding,
            setState, curState, hu]
      · rcases st with p | s <;>
        · refine ⟨?_, ?_, ?_, ?_⟩ <;>
            simp [loadAudioFileStart, setSrcStart, loadComplete, stopWithoutEnding,
              setState, curState, hu]
  · rcases tr with _ | ⟨tid, src, dat⟩
    · refine ⟨?_, ?_, ?_, ?_⟩ <;>
        simp [loadAudioFileStart, setSrcStart, loadComplete, stopWithoutEnding,
          setState, curState, hu]
    · rcases dat with _ | ⟨buf', st⟩
      · refine ⟨?_, ?_, ?_, ?_⟩ <;>
          simp [loadAudioFileStart, setSrcStart, loadComplete, stopWithoutEnding,
            setState, curState, hu]
      · rcases st with p | s <;>
        · refine ⟨?_, ?_, ?_, ?_⟩ <;>
            simp [loadAudioFileStart, setSrcStart, loadComplete, stopWithoutEnding,
              setState, curState, hu]

/-! ### C7 -/

/-- C7 counterexample: when the awaited load inside `loadAudioFile`
fails, the `.catch` handler dispatches the `error` event and then
re-throws, so the promise returned by the public `loadAudioFile`
operation rejects — contradicting the claim that failures never
propagate out of the public load operations. -/
theorem load_error_counterexample :
    (loadAudioFileSettle initialEngine 0 (Except.error ())).throws = true ∧
    (loadAudioFileSettle initialEngine 0 (Except.error ())).events = [Ev.error] :=
  ⟨rfl, rfl⟩

/-- C7 (amended): load failures are caught at the load boundary and
reported via an `error` event, and they never escape the `src`
setter's load chain; `loadAudioFile`, however, re-throws after
dispatching the event, so its returned promise rejects (and neither
failure path mutates the engine). -/
theorem load_error_spec_amended (e : Engine) (tid : Nat)
    (res : Except Unit AudioBuffer) :
    (setSrcSettle e tid res).throws = false ∧
    (∀ err, res = .error err →
      (loadAudioFileSettle e tid res).events = [Ev.error] ∧
      (loadAudioFileSettle e tid res).throws = true ∧
      (loadAudioFileSettle e tid res).engine = e ∧
      (setSrcSettle e tid res).events = [Ev.error] ∧
      (setSrcSettle e tid res).engine = e) ∧
    (∀ buf, res = .ok buf → (loadAudioFileSettle e tid res).throws = false) := by
  rcases res with err | buf
  · refine ⟨rfl, ?_, ?_⟩
    · intro err' h'
      exact ⟨rfl, rfl, rfl, rfl, rfl⟩
    · intro buf' h'
      cases h'
  · refine ⟨rfl, ?_, ?_⟩
    · intro err' h'
      cases h'
    · intro buf' h'
      rfl

/-- C7 witness: a failing load on a fresh engine. -/
theorem load_error_spec_amended_witness :
    (setSrcSettle initialEngine 0 (Except.error ())).throws = false ∧
    (loadAudioFileSettle initialEngine 0 (Except.error ())).throws = true :=
  ⟨(load_error_spec_amended initialEngine 0 (Except.error ())).1,
    ((load_error_spec_amended initialEngine 0 (Except.error ())).2.1 () rfl).2.1⟩

/-! ### C3 -/

/-- C3: when the current state is a playing state `s` with
`suppressEndedEvent` false, the natural-end listener that closed over
`s` fires `ended` and resets the state to `Paused(0)`; invoking it
again does nothing (so `ended` fires exactly once); and if a
`pause()`, a seek, or a new load stops the source first, the listener
fires nothing at all.  The hypotheses `hact` and `hfresh` are the
engine invariant relating the backend bookkeeping to the current
state. -/
theorem ended_once_and_suppressed (e : Engine) (s : Playing)
    (now posSec : ℚ) (f : Nat)
    (hs : curState e = some (.playing s))
    (hsup : s.suppressEndedEvent = false)
    (hact : e.activeSources = [s.id])
    (hfresh : s.id < e.fresh) :
    (naturalEnd e s.id).2 = [Ev.ended] ∧
    curState (naturalEnd e s.id).1 = some (.paused 0) ∧
    naturalEnd (naturalEnd e s.id).1 s.id = ((naturalEnd e s.id).1, []) ∧
    naturalEnd (pause e now).1 s.id = ((pause e now).1, []) ∧
    naturalEnd (setCurrentTime e now posSec).1 s.id =
      ((setCurrentTime e now posSec).1, []) ∧
    naturalEnd (loadAudioFileStart e f).1 s.id =
      ((loadAudioFileStart e f).1, []) := by
  obtain ⟨rate₀, adj, vol, mu, g, tr, act, fr⟩ := e
  obtain ⟨⟨tid, src, dat⟩, ⟨buf, dst⟩, htr, hd, hst⟩ := curState_eq_some.mp hs
  obtain rfl : tr = some ⟨tid, src, dat⟩ := htr
  obtain rfl : dat = some ⟨buf, dst⟩ := hd
  obtain rfl : dst = .playing s := hst
  obtain ⟨sid, ssup, sanchor, srate⟩ := s
  obtain rfl : ssup = false := hsup
  obtain rfl : act = [sid] := hact
  have hfr : sid < fr := hfresh
  have hne : fr ≠ sid := by omega
  refine ⟨?_, ?_, ?_, ?_, ?_, ?_⟩
  · simp [naturalEnd, setState, curState]
  · simp [naturalEnd, setState, curState]
  · simp [naturalEnd, setState, curState]
  · simp [naturalEnd, pause, stopWithoutEnding, setState, curState]
  · simp [naturalEnd, setCurrentTime, playFrom, stopWithoutEnding, setState,
      curState, hne]
  · simp [naturalEnd, loadAudioFileStart, stopWithoutEnding, setState, curState]

/-- C3 witness: the natural-end listener on `playingEngine`. -/
theorem ended_once_and_suppressed_witness :
    (naturalEnd playingEngine samplePlaying.id).2 = [Ev.ended] ∧
    curState (naturalEnd playingEngine samplePlaying.id).1 = some (.paused 0) ∧
    naturalEnd (naturalEnd playingEngine samplePlaying.id).1 samplePlaying.id =
      ((naturalEnd playingEngine samplePlaying.id).1, []) ∧
    naturalEnd (pause playingEngine 2).1 samplePlaying.id =
      ((pause playingEngine 2).1, []) ∧
    naturalEnd (setCurrentTime playingEngine 2 1).1 samplePlaying.id =
      ((setCurrentTime playingEngine 2 1).1, []) ∧
    naturalEnd (loadAudioFileStart playingEngine 0).1 samplePlaying.id =
      ((loadAudioFileStart playingEngine 0).1, []) :=
  ended_once_and_suppressed playingEngine samplePlaying 2 1 0 rfl rfl rfl
    (by decide)

/-! ### C5 -/

/-- C5: every public operation (and every modelled asynchronous
completion) preserves the engine invariant `inv`: the backend has at
most one active source, namely exactly the one owned by the current
`playing` state when there is one (so the previously active source is
always stopped before a new `Playing` is installed or a `Paused` is
derived from a running source), and a playing state's anchor was
computed with the current `playbackRate`.  The hypothesis on
`loadComplete` states that a load completion never targets a track
whose data is already populated — true of the program because
`loadFile` settles at most once per Track. -/
theorem engine_inv_preserved (e : Engine) (h : inv e = true) :
    (∀ now, inv (play e now).1 = true) ∧
    (∀ now, inv (pause e now).1 = true) ∧
    (∀ now posSec, inv (setCurrentTime e now posSec).1 = true) ∧
    (∀ now rate, inv (setPlaybackRate e now rate).1 = true) ∧
    (∀ now adjust, inv (setAdjustPitchWithPlaybackRate e now adjust).1 = true) ∧
    (∀ v, inv (setVolume e v).1 = true) ∧
    (∀ m, inv (setMuted e m).1 = true) ∧
    (∀ fileId, inv (loadAudioFileStart e fileId).1 = true) ∧
    (∀ url, inv (setSrcStart e url).1 = true) ∧
    (∀ tid buf, (∀ t, e.track = some t → t.data ≠ none → t.id ≠ tid) →
      inv (loadComplete e tid buf).1 = true) ∧
    (∀ cid, inv (naturalEnd e cid).1 = true) := by
  obtain ⟨rate₀, adj, vol, mu, g, tr, act, fr⟩ := e
  rcases tr with _ | ⟨tid, src, dat⟩
  · -- no track
    simp only [inv, decide_eq_true_eq] at h
    subst h
    refine ⟨?_, ?_, ?_, ?_, ?_, ?_, ?_, ?_, ?_, ?_, ?_⟩
    · intro now
      simp [play, curState, inv]
    · intro now
      simp [pause, curState, inv]
    · intro now posSec
      simp [setCurrentTime, curState, inv]
    · intro now rate
      simp [setPlaybackRate, changeConfiguration, curState, inv]
    · intro now adjust
      simp [setAdjustPitchWithPlaybackRate, changeConfiguration, curState, inv]
    · intro v
      simp only [setVolume, updateGain]
      split_ifs <;> simp [inv]
    · intro m
      simp only [setMuted, updateGain]
      split_ifs <;> simp [inv]
    · intro fileId
      simp [loadAudioFileStart, curState, inv]
    · intro url
      by_cases hu : url = "" <;>
        simp [setSrcStart, curState, inv, hu]
    · intro tid buf hcompat
      simp [loadComplete, inv]
    · intro cid
      simp [naturalEnd, curState, inv]
  · rcases dat with _ | ⟨buf', st⟩
    · -- track present, data not yet loaded
      simp only [inv, Bool.and_eq_true, decide_eq_true_eq] at h
      obtain ⟨htid, rfl⟩ := h
      refine ⟨?_, ?_, ?_, ?_, ?_, ?_, ?_, ?_, ?_, ?_, ?_⟩
      · intro now
        simp [play, curState, inv, htid]
      · intro now
        simp [pause, curState, inv, htid]
      · intro now posSec
        simp [setCurrentTime, curState, inv, htid]
      · intro now rate
        simp [setPlaybackRate, changeConfiguration, curState, inv, htid]
      · intro now adjust
        simp [setAdjustPitchWithPlaybackRate, changeConfiguration, curState,
          inv, htid]
      · intro v
        simp only [setVolume, updateGain]
        split_ifs <;> simp [inv, htid]
      · intro m
        simp only [setMuted, updateGain]
        split_ifs <;> simp [inv, htid]
      · intro fileId
        simp [loadAudioFileStart, curState, inv]
      · intro url
        by_cases hu : url = "" <;>
          simp [setSrcStart, curState, inv, hu]
      · intro tid' buf hcompat
        by_cases htc : tid = tid' <;>
          simp [loadComplete, inv, htc, htid] <;> omega
      · intro cid
        simp [naturalEnd, curState, inv, htid]
    · rcases st with p | s
      · -- paused
        simp only [inv, Bool.and_eq_true, decide_eq_true_eq] at h
        obtain ⟨htid, rfl⟩ := h
        refine ⟨?_, ?_, ?_, ?_, ?_, ?_, ?_, ?_, ?_, ?_, ?_⟩
        · intro now
          simp [play, playFrom, curState, inv, htid] <;> omega
        · intro now
          simp [pause, curState, inv, htid]
        · intro now posSec
          simp [setCurrentTime, setState, curState, inv, htid]
        · intro now rate
          simp [setPlaybackRate, changeConfiguration, curState, inv, htid]
        · intro now adjust
          simp [setAdjustPitchWithPlaybackRate, changeConfiguration, curState,
            inv, htid]
        · intro v
          simp only [setVolume, updateGain]
          split_ifs <;> simp [inv, htid]
        · intro m
          simp only [setMuted, updateGain]
          split_ifs <;> simp [inv, htid]
        · intro fileId
          simp [loadAudioFileStart, curState, inv]
        · intro url
          by_cases hu : url = "" <;>
            simp [setSrcStart, curState, inv, hu]
        · intro tid' buf hcompat
          by_cases htc : tid = tid' <;>
            simp [loadComplete, inv, htc, htid] <;> omega
        · intro cid
          simp [naturalEnd, curState, setState, inv, htid]
      · -- playing
        obtain ⟨sid, ssup, sanchor, srate⟩ := s
        simp only [inv, Bool.and_eq_true, decide_eq_true_eq] at h
        obtain ⟨htid, ⟨⟨rfl, rfl⟩, rfl⟩, hsid⟩ := h
        refine ⟨?_, ?_, ?_, ?_, ?_, ?_, ?_, ?_, ?_, ?_, ?_⟩
        · intro now
          simp [play, curState, inv, htid, hsid]
        · intro now
          simp [pause, stopWithoutEnding, setState, curState, inv, htid]
        · intro now posSec
          simp [setCurrentTime, playFrom, stopWithoutEnding, setState, curState,
            inv, htid] <;> omega
        · intro now rate
          simp [setPlaybackRate, changeConfiguration, pause, play, playFrom,
            stopWithoutEnding, setState, curState, inv, htid] <;> omega
        · intro now adjust
          simp [setAdjustPitchWithPlaybackRate, changeConfiguration, pause, play,
            playFrom, stopWithoutEnding, setState, curState, inv, htid] <;> omega
        · intro v
          simp only [setVolume, updateGain]
          split_ifs <;> simp [inv, htid, hsid]
        · intro m
          simp only [setMuted, updateGain]
          split_ifs <;> simp [inv, htid, hsid]
        · intro fileId
          simp [loadAudioFileStart, stopWithoutEnding, setState, curState, inv]
        · intro url
          by_cases hu : url = "" <;>
            simp [setSrcStart, stopWithoutEnding, setState, curState, inv, hu]
        · intro tid' buf hcompat
          by_cases htc : tid = tid'
          · exact absurd (htc) (hcompat _ rfl (by simp))
          · simp [loadComplete, inv, htc, htid, hsid]
        · intro cid
          by_cases hcid : sid = cid
          · subst hcid
            simp [naturalEnd, curState, setState, inv, htid]
          · simp [naturalEnd, curState, setState, inv, htid, hsid, hcid]

/-- C5 witness: the invariant holds of `playingEngine` and is
preserved by `pause`. -/
theorem engine_inv_preserved_witness :
    inv (pause playingEngine 2).1 = true :=
  (engine_inv_preserved playingEngine
    (by simp [inv, playingEngine, samplePlaying])).2.1 2

/-! ### C8 -/

/-- C8 counterexample: on a freshly constructed engine (whose stored
volume is already 1), assigning `volume = 1.5` fires no event at all,
because the clamped value equals the stored value — contradicting the
claim that the assignment fires `volumechange` exactly once. -/
theorem volume_spec_counterexample :
    (setVolume initialEngine (3/2)).2 = [] ∧
    ¬ (setVolume initialEngine (3/2)).2 = [Ev.volumechange] := by
  have h : max (0 : ℚ) (min 1 (3/2)) = 1 := by norm_num
  have hempty : (setVolume initialEngine (3/2)).2 = [] := by
    simp [setVolume, initialEngine, h]
  exact ⟨hempty, by rw [hempty]; simp⟩

/-- C8 (amended): after any assignment the stored volume is
`clamp(v, 0, 1)`, and `volumechange` fires exactly when the stored
value actually changes (idempotent no-op otherwise); consequently,
from a state whose stored volume is not already 1, assigning
`volume = 1.5` clamps to 1 and fires `volumechange` once, and
assigning `volume = 1.0` again fires nothing. -/
theorem volume_spec_amended :
    (∀ e v, (setVolume e v).1.volume = max 0 (min 1 v) ∧
      (setVolume e v).2 =
        (if max 0 (min 1 v) ≠ e.volume then [Ev.volumechange] else [])) ∧
    (∀ e, e.volume ≠ 1 →
      (setVolume e (3/2)).2 = [Ev.volumechange] ∧
      (setVolume (setVolume e (3/2)).1 1).2 = []) := by
  have hclamp : max (0 : ℚ) (min 1 (3/2)) = 1 := by norm_num
  have hmain : ∀ e v, (setVolume e v).1.volume = max 0 (min 1 v) ∧
      (setVolume e v).2 =
        (if max 0 (min 1 v) ≠ e.volume then [Ev.volumechange] else []) := by
    intro e v
    unfold setVolume updateGain
    by_cases hv : max 0 (min 1 v) ≠ e.volume
    · simp [hv]
    · push_neg at hv
      simp [hv]
  refine ⟨hmain, ?_⟩
  intro e he
  have h1 := hmain e (3/2)
  rw [hclamp] at h1
  have hfire : (setVolume e (3/2)).2 = [Ev.volumechange] := by
    rw [h1.2, if_pos (Ne.symm he)]
  refine ⟨hfire, ?_⟩
  have h2 := hmain (setVolume e (3/2)).1 1
  rw [h2.2]
  have hone : max (0 : ℚ) (min 1 1) = 1 := by norm_num
  rw [hone, h1.1]
  simp

/-! ### C4 -/

/-- C4: assigning `playbackRate` follows the reconfigure protocol
(pause capturing the position with the old rate, change the stored
rate, resume from the captured position), so with the clock not
advancing during the assignment `currentTimeMillis` immediately after
equals its value immediately before (for any nonzero new rate), the
stored rate is updated, and the event list of the assignment ends with
`ratechange` regardless of play state. -/
theorem playbackRate_reconfigure_spec (e : Engine) (now rate : ℚ)
    (hrate : rate ≠ 0) :
    currentTimeMillis (setPlaybackRate e now rate).1 now =
      currentTimeMillis e now ∧
    (setPlaybackRate e now rate).1.playbackRate = rate ∧
    (setPlaybackRate e now rate).2.getLast? = some Ev.ratechange := by
  obtain ⟨rate₀, adj, vol, mu, g, tr, act, fr⟩ := e
  rcases tr with _ | ⟨tid, src, dat⟩
  · refine ⟨?_, ?_, ?_⟩ <;>
      simp [setPlaybackRate, changeConfiguration, curState, currentTimeMillis,
        List.getLast?_concat]
  · rcases dat with _ | ⟨buf, st⟩
    · refine ⟨?_, ?_, ?_⟩ <;>
        simp [setPlaybackRate, changeConfiguration, curState, currentTimeMillis,
          List.getLast?_concat]
    · rcases st with p | s
      · refine ⟨?_, ?_, ?_⟩ <;>
          simp [setPlaybackRate, changeConfiguration, curState, currentTimeMillis,
            List.getLast?_concat]
      · refine ⟨?_, ?_, ?_⟩ <;>
          simp [setPlaybackRate, changeConfiguration, pause, play, playFrom,
            stopWithoutEnding, setState, curState, currentTimeMillis,
            List.getLast?_concat]
        field_simp

/-- C4 witness: doubling the rate of `playingEngine` at clock 2 s
preserves the current position. -/
theorem playbackRate_reconfigure_spec_witness :
    currentTimeMillis (setPlaybackRate playingEngine 2 2).1 2 =
      currentTimeMillis playingEngine 2 ∧
    (setPlaybackRate playingEngine 2 2).1.playbackRate = 2 ∧
    (setPlaybackRate playingEngine 2 2).2.getLast? = some Ev.ratechange :=
  playbackRate_reconfigure_spec playingEngine 2 2 (by norm_num)

/-- C8 witness: the amended scenario on an engine with volume ½. -/
theorem volume_spec_amended_witness :
    (setVolume halfVolumeEngine (3/2)).2 = [Ev.volumechange] ∧
    (setVolume (setVolume halfVolumeEngine (3/2)).1 1).2 = [] :=
  volume_spec_amended.2 halfVolumeEngine (by norm_num [halfVolumeEngine, initialEngine])

end PreciseAudio

namespace FileManipulation

/-! ### C9 -/

theorem smallShiftGuard_eq_false (shift : ℚ) : smallShiftGuard shift = false := by
  simp only [smallShiftGuard, Bool.and_eq_false_iff, decide_eq_false_iff_not]
  by_cases h : shift < (0.1 : ℚ)
  · right
    intro h2
    exact absurd h (not_lt.mpr (le_of_lt h2))
  · left
    exact h

theorem get?_mapWithIndexFrom {α β : Type} (f : Nat → α → β) (i n : Nat)
    (l : List α) :
    (mapWithIndexFrom f i l).get? n = (l.get? n).map (f (i + n)) := by
  induction l generalizing i n with
  | nil => simp [mapWithIndexFrom]
  | cons x xs ih =>
    cases n with
    | zero => simp [mapWithIndexFrom]
    | succ n =>
      have harith : i + 1 + n = i + (n + 1) := by omega
      simp only [mapWithIndexFrom, List.get?_cons_succ, ih, harith]

/-- C9: the small-shift guard condition of
`updateStartTimeForSelectedEvents` (`shift < 0.1 && shift > 0.1`,
kept verbatim from the source) is unsatisfiable — it evaluates to
`false` for every `shift` — so the early return it guards is
unreachable, and for every `newStartTime` whose clamped value
`max 0 newStartTime` differs from the selection's earliest start time,
every selected (and valid) event's timestamp is shifted by exactly
`newStartTime − start`. -/
theorem shift_guard_spec {S V : Type} (file : CueFile S V) (sel : Selection)
    (newStartTime : ℚ)
    (hne : sel.events ≠ [])
    (hdiff : selectionStart file sel ≠ max 0 newStartTime) :
    (∀ shift : ℚ, smallShiftGuard shift = false) ∧
    (∀ se ∈ sel.events, ∀ ev, lookupEvent file se = some ev →
      lookupEvent (updateStartTimeForSelectedEvents file sel newStartTime) se =
        some { timestampMillis :=
                 ev.timestampMillis + (max 0 newStartTime - selectionStart file sel)
               states := ev.states }) := by
  refine ⟨smallShiftGuard_eq_false, ?_⟩
  intro se hse ev hev
  have hred : updateStartTimeForSelectedEvents file sel newStartTime =
      modifyEvents file sel (fun e =>
        { timestampMillis :=
            e.timestampMillis + (max 0 newStartTime - selectionStart file sel)
          states := e.states }) := by
    unfold updateStartTimeForSelectedEvents
    rw [if_neg hne, if_neg hdiff]
    dsimp only
    rw [smallShiftGuard_eq_false, if_neg Bool.false_ne_true]
  rw [hred]
  obtain ⟨L, hL, hLe⟩ :
      ∃ L, file.layers.get? se.layer = some L ∧
        L.events.get? se.index = some ev := by
    unfold lookupEvent at hev
    rcases hget : file.layers.get? se.layer with _ | L
    · rw [hget] at hev
      simp at hev
    · rw [hget] at hev
      simp only [Option.some_bind] at hev
      exact ⟨L, rfl, hev⟩
  have hisSel : isSelected sel se.layer se.index = true := by
    unfold isSelected
    rw [List.any_eq_true]
    exact ⟨se, hse, by simp⟩
  unfold lookupEvent modifyEvents mapWithIndex
  rw [get?_mapWithIndexFrom, hL]
  simp only [Option.map_some', Option.some_bind, Nat.zero_add]
  rw [get?_mapWithIndexFrom, hLe]
  simp [hisSel]

/-- C9 witness: shifting the single selected event of `sampleCueFile`
to start time 5 ms moves its timestamp from 0 to 5. -/
theorem shift_guard_spec_witness :
    lookupEvent (updateStartTimeForSelectedEvents sampleCueFile sampleSelection 5)
        { layer := 0, index := 0 } =
      some { timestampMillis :=
               (0 : ℚ) + (max 0 5 - selectionStart sampleCueFile sampleSelection)
             states := [] } :=
  (shift_guard_spec sampleCueFile sampleSelection 5 (by decide)
      (by simp [selectionStart, sampleCueFile, sampleSelection, lookupEvent,
        listMin])).2
    { layer := 0, index := 0 } (by decide)
    { timestampMillis := 0, states := [] } rfl

end FileManipulation
